import Mathlib

/-!
Verification of the stat-arb-lab processing pipeline
(`src/research/processing/...`) against its natural-language
specification.

Shallow embedding conventions:
* Python `Result[T, str]` (`Ok`/`Err` from `research/shared/result.py`)
  is embedded as `Except String T` (`.ok` / `.error`).
* Machine floats are idealized as exact rationals `ℚ`; where the source
  relies on IEEE special values (NaN, ±∞) the value domain `FVal` below
  makes them explicit.
* Python strings are Lean `String`s; the configuration strings involved
  are ASCII, so UTF-8 bytes coincide with code points.
Each embedded definition cites the source file and lines it was
translated from.
-/

namespace StatArbLab

/-! ## String helpers mirroring Python primitives

`subAt s sub` is Python's `s.startswith(sub)`; `hasSub s sub` is
Python's `sub in s` (substring containment). Both are over `List Char`.
-/

def subAt : List Char → List Char → Bool
  | _, [] => true
  | [], _ :: _ => false
  | a :: as, b :: bs => a == b && subAt as bs

def hasSub : List Char → List Char → Bool
  | [], sub => sub.isEmpty
  | c :: t, sub => subAt (c :: t) sub || hasSub t sub

def strStartsWith (s p : String) : Bool := subAt s.data p.data

def strHasSub (s sub : String) : Bool := hasSub s.data sub.data

/-- Python `s.lower()` on ASCII text (structural, unlike the
iterator-based `String.toLower`). -/
def pyLower (s : String) : String := ⟨s.data.map Char.toLower⟩

/-- Python `", ".join(l)` (also used with separator `","`). -/
def joinSep (sep : String) : List String → String
  | [] => ""
  | [x] => x
  | x :: y :: xs => x ++ sep ++ joinSep sep (y :: xs)

/-- Python `int(''.join(filter(str.isdigit, s)))` on a non-empty digit
string: decimal value of the digit characters. -/
def digitsToNat (cs : List Char) : Nat :=
  cs.foldl (fun n c => n * 10 + (c.toNat - '0'.toNat)) 0

/-! ## C2: window-duration parsing (feature tiers)

`microParseWindowToRows` embeds
`MicrostructureTransformer._parse_window_to_rows`
(`src/research/processing/features/market_micro.py:281-294`; the second
class definition in that file shadows the first, so this is the
effective parser).

`statArbParseToRows` embeds `StatArbTransformer._parse_to_rows`
(`src/research/processing/features/stat_arb.py:308-318`; again the
second, effective class definition).

In both, Python's `int('')` raises `ValueError` when the string has no
digit characters, and the bare `except:` returns the default 60.
-/

def microParseWindowToRows (s : String) : Nat :=
  let digits := s.data.filter Char.isDigit
  if digits.isEmpty then 60
  else
    let val := digitsToNat digits
    let unit : String := ⟨(s.data.filter Char.isAlpha).map Char.toLower⟩
    if unit == "m" || unit == "" then val
    else if unit == "h" then val * 60
    else if unit == "d" then val * 1440
    else if unit == "i" then val
    else val

def statArbParseToRows (s : String) : Nat :=
  let digits := s.data.filter Char.isDigit
  if digits.isEmpty then 60
  else
    let val := digitsToNat digits
    let unit : String := ⟨(s.data.filter Char.isAlpha).map Char.toLower⟩
    if unit == "h" || unit == "hr" then val * 60
    else if unit == "d" || unit == "day" then val * 1440
    else if unit == "w" || unit == "week" then val * 10080
    else val

/-! ## C5: storage-time schema enforcement

Embeds `MetadataRegistry.validate_schema_integrity`
(`src/research/processing/storage/metadata_registry.py:130-156`).
A column's dtype is represented by its `str(dtype)` string (e.g.
`"Float32"`, `"Float64"`); the source lowercases it and tests substring
containment against the `_FLOAT64_INDICATORS`.
-/

def sensitivePrefixes : List String :=
  ["log_", "ret_", "vol_", "corr_", "beta_", "spread_", "z_score_"]

def float64Indicators : List String := ["float64", "f64"]

def isSensitiveCol (col : String) : Bool :=
  sensitivePrefixes.any (fun p => strStartsWith col p)

def isFloat64Dtype (dtypeStr : String) : Bool :=
  float64Indicators.any (fun ind => strHasSub dtypeStr ind)

/-- The `violations` list accumulated by `validate_schema_integrity`,
in schema order; each entry is the f-string `f"{col} ({dtype_str})"`. -/
def schemaViolations (schema : List (String × String)) : List String :=
  schema.filterMap (fun cd =>
    let dtypeStr := pyLower cd.2
    if isSensitiveCol cd.1 then
      if isFloat64Dtype dtypeStr then none
      else some (cd.1 ++ " (" ++ dtypeStr ++ ")")
    else none)

def validateSchemaIntegrity (schema : List (String × String)) :
    Except String Unit :=
  let violations := schemaViolations schema
  if violations.isEmpty then Except.ok ()
  else Except.error
    ("Precision violation: " ++ joinSep ", " violations ++ " must be Float64")

/-- `sub` occurs contiguously inside `s` (the Prop-level reading of
Python's `sub in s`), used to state that an error message names a
column. -/
def SubSeg (sub s : List Char) : Prop := ∃ a b, s = a ++ sub ++ b

/-! ## C10: aligner construction and factory

Embeds `HybridAsofAligner.__init__` / `_validate_constructor`
(`src/research/processing/alignment/strategies.py:31-53`),
`create_aligner` (ibid. 360-384) and the facade `get_aligner`
(`src/research/processing/alignment/aligner.py:27-57`).
The `ValueError` raised by `_validate_constructor` is caught by
`create_aligner`'s `except` clause, which returns
`Err(f"failed to create aligner: {e}")`. The tolerance-format check
only logs a warning and never fails.
-/

def validStrategies : List String := ["backward", "foward"]

def hybridValidateConstructor (strategy : String) : Except String Unit :=
  if validStrategies.contains strategy then Except.ok ()
  else Except.error
    ("Invalid strategy: " ++ strategy ++ ". Must be ['backward', 'foward']")

structure HybridAsofAlignerCfg where
  tolerance : String
  strategy : String
deriving Repr, DecidableEq

def mkHybridAsofAligner (tolerance strategy : String) :
    Except String HybridAsofAlignerCfg :=
  match hybridValidateConstructor strategy with
  | Except.ok _ => Except.ok ⟨tolerance, strategy⟩
  | Except.error e => Except.error e

inductive AlignerObj where
  | asof (cfg : HybridAsofAlignerCfg)
  | exact
deriving Repr, DecidableEq

def createAligner (strategy tolerance joinStrategy : String) :
    Except String AlignerObj :=
  if strategy == "asof" then
    match mkHybridAsofAligner tolerance joinStrategy with
    | Except.ok cfg => Except.ok (AlignerObj.asof cfg)
    | Except.error e => Except.error ("failed to create aligner: " ++ e)
  else if strategy == "exact" then Except.ok AlignerObj.exact
  else Except.error "Create aligner does not comply with TimeSeriesAligner protocol"

def getAligner (method tolerance joinStrategy : String) :
    Except String AlignerObj :=
  if ["asof", "exact"].contains method then
    createAligner method tolerance joinStrategy
  else Except.error
    ("Invalid method: '" ++ method ++ "'. Must be one of ['asof', 'exact']")

/-! ## C3: pipeline orchestrator

Embeds `StandardPipeline.execute_multi_asset`
(`src/research/processing/pipeline.py:66-147`) over abstract stage
outcomes: `alignRes` is the outcome of `_execute_alignment` (including
its `skip_alignment` pass-through), `validator`/`storage` are the
optional stages, each modelled by the `Result`-valued function the
source calls. `runTransformers` embeds the loop of
`_execute_transformations` (ibid. 325-422): the first transformer
error is returned as-is (line 372 `return result`); on the empty list
the stage returns `Ok(data)` (ibid. 337-344, matching the orchestrator's
`if self.transformers` guard). A storage failure is only logged
(ibid. 115-119) and the run returns `Ok(current_data)` (ibid. 132-133).
-/

def runTransformers {α : Type} (data : α)
    (ts : List (α → Except String α)) : Except String α :=
  match ts with
  | [] => Except.ok data
  | t :: rest =>
    match t data with
    | Except.error e => Except.error e
    | Except.ok d => runTransformers d rest

def executeMultiAsset {α : Type} (alignRes : Except String α)
    (validator : Option (α → Except String α))
    (transformers : List (α → Except String α))
    (storage : Option (α → Except String String)) : Except String α :=
  match alignRes with
  | Except.error e => Except.error e
  | Except.ok d0 =>
    match (match validator with
           | none => Except.ok d0
           | some v => v d0) with
    | Except.error e => Except.error e
    | Except.ok d1 =>
      match runTransformers d1 transformers with
      | Except.error e => Except.error e
      | Except.ok d2 =>
        -- Storage hand-off: executed when configured, but its Err is
        -- only logged (pipeline.py:115-119); the run returns Ok.
        let _storageRes := storage.map (fun s => s d2)
        Except.ok d2

/-! ## C8: validation rule set

Embeds the frozen dataclass `ValidationRules`
(`src/research/processing/validation/rules.py:13-136`).
`postInitCheck` is `__post_init__` (raising = `Except.error`);
`rulesFromDict` is `ValidationRules.from_dict` restricted to the
recognized keys (unknown keys are filtered out by the source before
construction, so they are not represented); `withOverrides` is
`ValidationRules.with_overrides`, whose `except` clause returns `self`
when `dataclasses.replace` (which re-runs `__post_init__`) raises.
`PolarsValidator._resolve_rules`
(`src/research/processing/validation/validator.py:110-119`) merges
per-call overrides by calling exactly `with_overrides`.
`min_rows` and timestamps are `Int` (Python ints), float fields are
idealized as `ℚ`.
-/

structure ValidationRules where
  min_rows : Int := 100
  max_null_pct : ℚ := 5 / 100
  required_columns : List String := ["timestamp", "close"]
  check_sorted : Bool := true
  strict_types : Bool := true
  check_ohlc_consistency : Bool := true
  min_price : ℚ := 0
  max_price_spread_pct : ℚ := 1 / 2
  allow_zero_volume : Bool := true
  validate_timestamp_range : Bool := false
  min_timestamp : Int := 0
  max_timestamp : Int := 10000000000000
deriving Repr, DecidableEq

def defaultValidationRules : ValidationRules := {}

def postInitCheck (r : ValidationRules) : Except String ValidationRules :=
  if r.min_rows < 1 then
    Except.error "min_rows must be >= 1"
  else if ¬ (0 ≤ r.max_null_pct ∧ r.max_null_pct ≤ 1) then
    Except.error "max_null_pct must be 0.0-1.0"
  else if r.min_price < 0 then
    Except.error "min_price cannot be negative"
  else if r.validate_timestamp_range ∧ r.max_timestamp ≤ r.min_timestamp then
    Except.error "min_timestamp must be < max_timestamp"
  else if r.required_columns.isEmpty then
    Except.error "required_columns cannot be empty"
  else Except.ok r

/-- The recognized override keys, each `none` when the key is absent
from the override dictionary. -/
structure RuleOverrides where
  min_rows : Option Int := none
  max_null_pct : Option ℚ := none
  required_columns : Option (List String) := none
  check_sorted : Option Bool := none
  strict_types : Option Bool := none
  check_ohlc_consistency : Option Bool := none
  min_price : Option ℚ := none
  max_price_spread_pct : Option ℚ := none
  allow_zero_volume : Option Bool := none
  validate_timestamp_range : Option Bool := none
  min_timestamp : Option Int := none
  max_timestamp : Option Int := none
deriving Repr

def applyOverrides (r : ValidationRules) (o : RuleOverrides) : ValidationRules where
  min_rows := o.min_rows.getD r.min_rows
  max_null_pct := o.max_null_pct.getD r.max_null_pct
  required_columns := o.required_columns.getD r.required_columns
  check_sorted := o.check_sorted.getD r.check_sorted
  strict_types := o.strict_types.getD r.strict_types
  check_ohlc_consistency := o.check_ohlc_consistency.getD r.check_ohlc_consistency
  min_price := o.min_price.getD r.min_price
  max_price_spread_pct := o.max_price_spread_pct.getD r.max_price_spread_pct
  allow_zero_volume := o.allow_zero_volume.getD r.allow_zero_volume
  validate_timestamp_range := o.validate_timestamp_range.getD r.validate_timestamp_range
  min_timestamp := o.min_timestamp.getD r.min_timestamp
  max_timestamp := o.max_timestamp.getD r.max_timestamp

/-- `ValidationRules.from_dict` (rules.py:79-107): injects `"timestamp"`
into a provided `required_columns` list before construction. -/
def rulesFromDict (o : RuleOverrides) : Except String ValidationRules :=
  let o' :=
    match o.required_columns with
    | none => o
    | some cols =>
      let cols' := if cols.contains "timestamp" then cols else "timestamp" :: cols
      { o with required_columns := some cols' }
  postInitCheck (applyOverrides defaultValidationRules o')

/-- `ValidationRules.with_overrides` (rules.py:113-136): applies the
overrides via `dataclasses.replace`; any exception (in particular a
`__post_init__` validation error) is caught and `self` is returned. -/
def withOverrides (r : ValidationRules) (o : RuleOverrides) : ValidationRules :=
  match postInitCheck (applyOverrides r o) with
  | Except.ok r' => r'
  | Except.error _ => r

/-! ## C6: Tier 3 rolling beta with the zero-variance guardrail

Embeds the effective `StatArbTransformer._build_beta_expressions`
(`src/research/processing/features/stat_arb.py:229-261`; the file
defines the class twice and the second definition shadows the first, so
the `pl.when(var < 1e-9)` guard version is the one that runs).

Rolling semantics (polars integer-window rolling, current row
inclusive): at row `i` the window is the last `min(w, i+1)` values; the
cell is null when the window holds fewer than `min_periods` values;
`rolling_var`/`rolling_cov` use the sample (ddof = 1) estimators.
Floats are idealized as `ℚ`; IEEE special values are made explicit via
`FVal` so that the "never NaN / ±∞" part of the claim is expressible:
`fdiv` sends division by an exact zero to NaN/±∞ exactly as IEEE-754
division would.
-/

def rollingSlice (w : Nat) (xs : List ℚ) (i : Nat) : List ℚ :=
  (xs.take (i + 1)).drop (i + 1 - w)

def qmean (l : List ℚ) : ℚ := l.sum / l.length

/-- Sample variance (ddof = 1), total on `ℚ` (the degenerate
zero-denominator cases are unreachable under the `min_periods ≥ 2`
guard the source uses). -/
def sampleVar (l : List ℚ) : ℚ :=
  (l.map (fun x => (x - qmean l) ^ 2)).sum / ((l.length : ℚ) - 1)

def sampleCov (l : List (ℚ × ℚ)) : ℚ :=
  let mx := qmean (l.map Prod.fst)
  let my := qmean (l.map Prod.snd)
  (l.map (fun p => (p.1 - mx) * (p.2 - my))).sum / ((l.length : ℚ) - 1)

def rollingVar (w mp : Nat) (xs : List ℚ) (i : Nat) : Option ℚ :=
  let win := rollingSlice w xs i
  if win.length < mp then none else some (sampleVar win)

def rollingCov (w mp : Nat) (xs ys : List ℚ) (i : Nat) : Option ℚ :=
  let win := ((xs.zip ys).take (i + 1)).drop (i + 1 - w)
  if win.length < mp then none else some (sampleCov win)

inductive FVal where
  | num (q : ℚ)
  | nan
  | pinf
  | ninf
deriving Repr, DecidableEq

/-- IEEE-style division on the idealized value domain: only the
finite/finite case is exercised by the beta expression. -/
def fdiv : FVal → FVal → FVal
  | FVal.num a, FVal.num b =>
    if b = 0 then (if a = 0 then FVal.nan else if 0 < a then FVal.pinf else FVal.ninf)
    else FVal.num (a / b)
  | _, _ => FVal.nan

def fillNan (repl : ℚ) : FVal → FVal
  | FVal.nan => FVal.num repl
  | v => v

/-- The epsilon of the guard `pl.when(var < 1e-9)` (stat_arb.py:253). -/
def betaEps : ℚ := 1 / 1000000000

/-- The beta cell before `fill_nan`/`fill_null`:
`pl.when(var < 1e-9).then(0.0).otherwise(cov / var)`. A null `var`
(window below `min_periods`) gives a null condition, hence a null cell;
likewise a null `cov` nullifies the division. -/
def betaCellRaw (w mp : Nat) (target anchor : List ℚ) (i : Nat) : Option FVal :=
  match rollingVar w mp anchor i with
  | none => none
  | some v =>
    if v < betaEps then some (FVal.num 0)
    else
      match rollingCov w mp target anchor i with
      | none => none
      | some c => some (fdiv (FVal.num c) (FVal.num v))

/-- The materialized `beta_<target>_<anchor>` cell at row `i`:
the guarded division followed by `.fill_nan(0.0).fill_null(0.0)`. -/
def betaCell (w mp : Nat) (target anchor : List ℚ) (i : Nat) : FVal :=
  match (betaCellRaw w mp target anchor i).map (fillNan 0) with
  | none => FVal.num 0
  | some v => v

/-! ## C4: configuration fingerprinting

Embeds `MetadataRegistry.generate_feature_hash`
(`src/research/processing/storage/metadata_registry.py:56-82`):
`hashlib.sha256(json.dumps(config, sort_keys=True, default=str)
.encode()).hexdigest()`. The runtime hash cache (lines 67-76) only
avoids recomputation and never changes the returned value, so it is
not represented.

A configuration dictionary is a key-value list with the keys distinct
(a Python `dict`); the claims only involve integer values.
`canonicalConfigStr` is `json.dumps(d, sort_keys=True)` for such a
dict whose keys contain no characters needing JSON escapes: entries
sorted by key, rendered `"k": v` and joined with `", "` inside braces
(the default `json.dumps` separators when `indent=None`).

`sha256Hex` is FIPS 180-4 SHA-256 over the UTF-8 bytes of that string
(ASCII, so bytes = code points), mod-2^32 arithmetic written out on
`Nat`.
-/

/-- Python's lexicographic string order (code-point comparison), as a
structural Boolean predicate on the underlying character lists. -/
def charListLe : List Char → List Char → Bool
  | [], _ => true
  | _ :: _, [] => false
  | a :: as, b :: bs =>
    if a.toNat < b.toNat then true
    else if b.toNat < a.toNat then false
    else charListLe as bs

def pyStrLe (a b : String) : Bool := charListLe a.data b.data

/-- Sorting key order for `sort_keys=True`. -/
def keyLe (a b : String × Int) : Prop := pyStrLe a.1 b.1 = true

instance : DecidableRel keyLe := fun a b =>
  inferInstanceAs (Decidable (pyStrLe a.1 b.1 = true))

def renderEntry (kv : String × Int) : String :=
  "\x22" ++ kv.1 ++ "\x22: " ++ toString kv.2

def canonicalConfigStr (d : List (String × Int)) : String :=
  "\x7b" ++ joinSep ", " ((d.insertionSort keyLe).map renderEntry) ++ "\x7d"

def strToBytes (s : String) : List Nat := s.data.map Char.toNat

def add32 (a b : Nat) : Nat := (a + b) % 4294967296

def rotr (n x : Nat) : Nat :=
  ((x >>> n) ||| (x <<< (32 - n))) % 4294967296

def sha256K : List Nat :=
  [1116352408, 1899447441, 3049323471, 3921009573, 961987163, 1508970993,
   2453635748, 2870763221, 3624381080, 310598401, 607225278, 1426881987,
   1925078388, 2162078206, 2614888103, 3248222580, 3835390401, 4022224774,
   264347078, 604807628, 770255983, 1249150122, 1555081692, 1996064986,
   2554220882, 2821834349, 2952996808, 3210313671, 3336571891, 3584528711,
   113926993, 338241895, 666307205, 773529912, 1294757372, 1396182291,
   1695183700, 1986661051, 2177026350, 2456956037, 2730485921, 2820302411,
   3259730800, 3345764771, 3516065817, 3600352804, 4094571909, 275423344,
   430227734, 506948616, 659060556, 883997877, 958139571, 1322822218,
   1537002063, 1747873779, 1955562222, 2024104815, 2227730452, 2361852424,
   2428436474, 2756734187, 3204031479, 3329325298]

def sha256H0 : List Nat :=
  [1779033703, 3144134277, 1013904242, 2773480762,
   1359893119, 2600822924, 528734635, 1541459225]

def ssig0 (x : Nat) : Nat := (rotr 7 x) ^^^ (rotr 18 x) ^^^ (x >>> 3)

def ssig1 (x : Nat) : Nat := (rotr 17 x) ^^^ (rotr 19 x) ^^^ (x >>> 10)

def bsig0 (x : Nat) : Nat := (rotr 2 x) ^^^ (rotr 13 x) ^^^ (rotr 22 x)

def bsig1 (x : Nat) : Nat := (rotr 6 x) ^^^ (rotr 11 x) ^^^ (rotr 25 x)

def chf (x y z : Nat) : Nat := (x &&& y) ^^^ ((x ^^^ 0xffffffff) &&& z)

def majf (x y z : Nat) : Nat := (x &&& y) ^^^ (x &&& z) ^^^ (y &&& z)

/-- Big-endian bytes (`k` of them) of `n`. -/
def natToBytesBE : Nat → Nat → List Nat
  | 0, _ => []
  | k + 1, n => natToBytesBE k (n / 256) ++ [n % 256]

/-- SHA-256 padding: append `0x80`, zero bytes up to 56 mod 64, then the
bit length as 8 big-endian bytes. -/
def sha256Pad (msg : List Nat) : List Nat :=
  let l := msg.length
  let padZeros := (119 - (l % 64)) % 64
  msg ++ [0x80] ++ List.replicate padZeros 0 ++ natToBytesBE 8 (8 * l)

/-- Group bytes four at a time into big-endian 32-bit words. -/
def bytesToWords : List Nat → List Nat
  | b0 :: b1 :: b2 :: b3 :: rest =>
    (((b0 * 256 + b1) * 256 + b2) * 256 + b3) :: bytesToWords rest
  | _ => []

/-- Split a (padded) byte list into 64-byte blocks; the fuel (the list
length bounds the number of blocks) keeps the recursion structural. -/
def chunk64Fuel : Nat → List Nat → List (List Nat)
  | 0, _ => []
  | _, [] => []
  | fuel + 1, c :: t => (c :: t).take 64 :: chunk64Fuel fuel ((c :: t).drop 64)

def chunk64 (l : List Nat) : List (List Nat) := chunk64Fuel l.length l

/-- Extend a 16-word block schedule out to 64 words. -/
def extendSchedule : List Nat → Nat → List Nat
  | w, 0 => w
  | w, n + 1 =>
    let i := w.length
    let nw := add32 (add32 (ssig1 (w.getD (i - 2) 0)) (w.getD (i - 7) 0))
                    (add32 (ssig0 (w.getD (i - 15) 0)) (w.getD (i - 16) 0))
    extendSchedule (w ++ [nw]) n

/-- One compression round; the state is the 8-tuple (a,...,h) as a list. -/
def sha256Round (st : List Nat) (wk : Nat × Nat) : List Nat :=
  let a := st.getD 0 0
  let b := st.getD 1 0
  let c := st.getD 2 0
  let d := st.getD 3 0
  let e := st.getD 4 0
  let f := st.getD 5 0
  let g := st.getD 6 0
  let h := st.getD 7 0
  let t1 := add32 (add32 (add32 h (bsig1 e)) (add32 (chf e f g) wk.2)) wk.1
  let t2 := add32 (bsig0 a) (majf a b c)
  [add32 t1 t2, a, b, c, add32 d t1, e, f, g]

def sha256Block (h : List Nat) (block : List Nat) : List Nat :=
  let w := extendSchedule (bytesToWords block) 48
  let st := (w.zip sha256K).foldl sha256Round h
  (h.zip st).map (fun p => add32 p.1 p.2)

def hexDigit (n : Nat) : Char :=
  if n < 10 then Char.ofNat ('0'.toNat + n) else Char.ofNat ('a'.toNat + n - 10)

def wordToHex (w : Nat) : String :=
  ⟨[hexDigit ((w >>> 28) &&& 15), hexDigit ((w >>> 24) &&& 15),
    hexDigit ((w >>> 20) &&& 15), hexDigit ((w >>> 16) &&& 15),
    hexDigit ((w >>> 12) &&& 15), hexDigit ((w >>> 8) &&& 15),
    hexDigit ((w >>> 4) &&& 15), hexDigit (w &&& 15)]⟩

def sha256Hex (msg : List Nat) : String :=
  let final := (chunk64 (sha256Pad msg)).foldl sha256Block sha256H0
  String.join (final.map wordToHex)

/-- `MetadataRegistry.generate_feature_hash` on an integer-valued
configuration dictionary. -/
def generateFeatureHash (d : List (String × Int)) : String :=
  sha256Hex (strToBytes (canonicalConfigStr d))

/-! ## C9: Tier 1 (log-returns) transformer

Embeds `LogReturnsTransformer.transform`
(`src/research/processing/transformation/returns.py:49-115`).

A feature frame is a list of named columns of nullable floats.
`transform` itself is lazy: it inspects the schema, auto-detects the
`close_*` targets, and returns `Ok` of the not-yet-materialized plan
(frame + targets). Materialization (`.collect()`) applies polars
`with_columns` semantics: every expression in a single `with_columns`
call is resolved against the INPUT frame's schema — an expression
referencing a column created by another expression of the same call
fails with a column-not-found error. `transform` appends, for each
target `close_X`, the expression aliased `log_X` (reading `close_X`)
and the expression aliased `ret_X` — which reads `log_X`
(returns.py:93) even though `log_X` is created by the very same
`with_columns` batch (returns.py:97).

The natural log is a parameter `log : ℚ → ℚ` (an idealization of the
float `ln`); the clamp `pl.when(col <= 0).then(epsilon)` and
`diff().fill_null(0.0)` are written out.
-/

structure QFrame where
  cols : List (String × List (Option ℚ))
deriving Repr, DecidableEq

def lookupColQ (f : QFrame) (name : String) : Option (List (Option ℚ)) :=
  (f.cols.find? (fun c => c.1 == name)).map Prod.snd

def colNamesQ (f : QFrame) : List String := f.cols.map Prod.fst

/-- `pl.when(col <= 0).then(epsilon).otherwise(col).log()` applied
cellwise (nulls propagate). -/
def tier1LogCells (lg : ℚ → ℚ) (replaceZeros : Bool) (eps : ℚ)
    (xs : List (Option ℚ)) : List (Option ℚ) :=
  xs.map (Option.map (fun p =>
    lg (if replaceZeros = true ∧ p ≤ 0 then eps else p)))

/-- `pl.col(c).diff()`: first cell null, cell `i` is `x_i - x_(i-1)`
(null when either operand is null). -/
def diffCells (xs : List (Option ℚ)) : List (Option ℚ) :=
  (List.range xs.length).map (fun i =>
    match i with
    | 0 => none
    | j + 1 =>
      match xs.getD (j + 1) none, xs.getD j none with
      | some a, some b => some (a - b)
      | _, _ => none)

def fillNullCells (v : ℚ) (xs : List (Option ℚ)) : List (Option ℚ) :=
  xs.map (fun c => some (c.getD v))

/-- Evaluate the tier-1 expression batch against the input frame `f`
(parallel `with_columns` resolution): for each target `close_X`, the
`log_X` expression reads `close_X` and the `ret_X` expression reads
`log_X` — from `f`'s schema. A reference to a column absent from `f`
is a column-not-found error, as in polars. -/
def evalTier1Exprs (lg : ℚ → ℚ) (replaceZeros : Bool) (eps : ℚ)
    (f : QFrame) : List String → Except String (List (String × List (Option ℚ)))
  | [] => Except.ok []
  | col :: rest =>
    let base := col.drop 6   -- col.replace("close_", "") on a close_* name
    match lookupColQ f col with
    | none => Except.error ("column " ++ col ++ " not found")
    | some xs =>
      match lookupColQ f ("log_" ++ base) with
      | none => Except.error ("column log_" ++ base ++ " not found")
      | some ls =>
        match evalTier1Exprs lg replaceZeros eps f rest with
        | Except.error e => Except.error e
        | Except.ok tail =>
          Except.ok (("log_" ++ base, tier1LogCells lg replaceZeros eps xs) ::
                     ("ret_" ++ base, fillNullCells 0 (diffCells ls)) :: tail)

/-- `with_columns` merge: same-name columns are replaced in place, new
names are appended in expression order. -/
def upsertCols (base new : List (String × List (Option ℚ))) :
    List (String × List (Option ℚ)) :=
  (base.map (fun c =>
    match new.find? (fun n => n.1 == c.1) with
    | some n => n
    | none => c)) ++
  new.filter (fun n => !(base.any (fun c => c.1 == n.1)))

/-- The lazy `transform` call: schema inspection and target
auto-detection only (returns.py:57-64); the expression batch is not yet
evaluated. -/
def tier1Transform (f : QFrame) : Except String (QFrame × List String) :=
  let targets := (colNamesQ f).filter (fun c => strStartsWith c "close_")
  if targets.isEmpty then
    Except.error "LogReturns: No target columns found (expected 'close_*')"
  else Except.ok (f, targets)

/-- Materialization (`.collect()`) of the transformed lazy frame. -/
def tier1Collect (lg : ℚ → ℚ) (replaceZeros : Bool) (eps : ℚ)
    (lazy : QFrame × List String) : Except String QFrame :=
  match evalTier1Exprs lg replaceZeros eps lazy.1 lazy.2 with
  | Except.error e => Except.error e
  | Except.ok newCols => Except.ok ⟨upsertCols lazy.1.cols newCols⟩

/-- `transform` followed by `.collect()`. -/
def tier1Run (lg : ℚ → ℚ) (replaceZeros : Bool) (eps : ℚ)
    (f : QFrame) : Except String QFrame :=
  match tier1Transform f with
  | Except.error e => Except.error e
  | Except.ok lazy => tier1Collect lg replaceZeros eps lazy

/-- The two-point price frame of the returns round-trip property
(`tests/test_returns.py::test_basic_math`). -/
def testT1Frame : QFrame :=
  ⟨[("timestamp", [some 1, some 2]), ("close_BTC", [some 100, some 110])]⟩

/-! ## C1 / C7: Hybrid-Asof alignment

Embeds `HybridAsofAligner`
(`src/research/processing/alignment/strategies.py:20-264`).

Frame model: a `PFrame` has a dedicated integer `timestamp` key per row
(the source casts the timestamp column to `Int64` up front, so the cast
is the identity here; a frame without a timestamp column is not
representable, which is the only `_standardize_frame` failure path) and
the remaining columns as a name list plus per-row value lists. Cell
values (`CVal`) are floats, strings (metadata literals), the derived
`datatime` mirror of the timestamp, or null.

* `standardizeFrame` = `_standardize_frame` (lines 213-237): sort
  ascending by timestamp, de-duplicate keeping the last occurrence,
  append the `datatime` column.
* `joinAsofBackward` = `join_asof(..., strategy="backward",
  tolerance=...)` (lines 202-207): each anchor row keeps its position;
  the latest follower row at or before the anchor timestamp is glued on
  when within tolerance, else nulls. Polars parses the tolerance
  duration string; `tolMs` is that parsed value in timestamp units.
  Right-hand columns whose names collide are renamed with polars'
  `_right` suffix (this happens because the loop guard at line 111,
  `if symbols == anchor_symbol`, compares a list with a string, never
  fires, and so the anchor is also asof-joined onto itself).
* `dropNullRows` = `_drop_null_rows` (lines 239-250): find the columns
  whose lowercased name contains one of open/high/low/close/volume and
  keep the rows where `pl.any_horizontal` of `is_not_null` holds, i.e.
  where at least one such column is non-null.
* `hybridAlign` = `align` (lines 60-144) for the default "backward"
  strategy; `strict` defaults to `True` there (line 88). The
  `suffix_format` kwarg (default `"_{symbol}"`) is modelled as the
  formatted-suffix function `sfx`, `none` when the format string is
  falsy (in which case the source skips renaming).
-/

inductive CVal where
  | num (q : ℚ)
  | str (s : String)
  | dt (t : Int)
  | vnull
deriving Repr, DecidableEq

structure PFrame where
  colNames : List String
  rows : List (Int × List CVal)
deriving Repr, DecidableEq

def rowLe (a b : Int × List CVal) : Prop := a.1 ≤ b.1

instance : DecidableRel rowLe := fun a b =>
  inferInstanceAs (Decidable (a.1 ≤ b.1))

/-- Keep only the last occurrence of each timestamp, preserving order
(`unique(subset=["timestamp"], keep="last")` on a sorted frame). -/
def dedupKeepLast : List (Int × List CVal) → List (Int × List CVal)
  | [] => []
  | r :: rest =>
    if rest.any (fun x => x.1 == r.1) then dedupKeepLast rest
    else r :: dedupKeepLast rest

def standardizeFrame (f : PFrame) : PFrame :=
  let sorted := f.rows.insertionSort rowLe
  let deduped := dedupKeepLast sorted
  ⟨f.colNames ++ ["datatime"],
   deduped.map (fun r => (r.1, r.2 ++ [CVal.dt r.1]))⟩

/-- Alias every non-timestamp column with the per-symbol suffix. -/
def suffixCols (sfx : String) (f : PFrame) : PFrame :=
  ⟨f.colNames.map (fun c => c ++ sfx), f.rows⟩

/-- Latest follower row at or before `t` (follower sorted ascending). -/
def lastLE (rows : List (Int × List CVal)) (t : Int) : Option (Int × List CVal) :=
  rows.foldl (fun acc r => if r.1 ≤ t then some r else acc) none

def joinAsofBackward (tolMs : Int) (base follower : PFrame) : PFrame :=
  let rNames := follower.colNames.map (fun c =>
    if base.colNames.contains c then c ++ "_right" else c)
  let nullPad := rNames.map (fun _ => CVal.vnull)
  ⟨base.colNames ++ rNames,
   base.rows.map (fun r =>
     match lastLE follower.rows r.1 with
     | none => (r.1, r.2 ++ nullPad)
     | some m =>
       if r.1 - m.1 ≤ tolMs then (r.1, r.2 ++ m.2) else (r.1, r.2 ++ nullPad))⟩

/-- `_join_result` for one symbol: standardize, suffix, asof-join. -/
def joinSymbol (tolMs : Int) (sfx : Option (String → String))
    (base : PFrame) (symFrame : PFrame) (sym : String) : PFrame :=
  let std := standardizeFrame symFrame
  let std' := match sfx with
    | some fmt => suffixCols (fmt sym) std
    | none => std
  joinAsofBackward tolMs base std'

def priceNameParts : List String := ["open", "high", "low", "close", "volume"]

def isPriceCol (name : String) : Bool :=
  priceNameParts.any (fun p => strHasSub (pyLower name) p)

def dropNullRows (f : PFrame) : PFrame :=
  let priceIdx := (f.colNames.enum.filter (fun p => isPriceCol p.2)).map Prod.fst
  if priceIdx.isEmpty then f
  else
    ⟨f.colNames,
     f.rows.filter (fun r =>
       priceIdx.any (fun i => decide (r.2.getD i CVal.vnull ≠ CVal.vnull)))⟩

def hybridMethodStr (tolerance strategy : String) : String :=
  "join_asof (tol=" ++ tolerance ++ "), strategy=" ++ strategy ++ ", strict_type=True"

def addAlignmentMetadata (f : PFrame) (symbols : List String)
    (anchor : String) (method : String) : PFrame :=
  ⟨f.colNames ++
     ["_aligned_symbols", "_anchor_symbol", "_alignment_method", "_symbol_count"],
   f.rows.map (fun r =>
     (r.1, r.2 ++ [CVal.str (joinSep "," symbols), CVal.str anchor,
                   CVal.str method, CVal.num symbols.length]))⟩

def lookupFrame (dm : List (String × PFrame)) (sym : String) : Option PFrame :=
  (dm.find? (fun p => p.1 == sym)).map Prod.snd

/-- The body of `align` once the anchor symbol has been resolved
(`align` lines 92-139). -/
def hybridAlignCore (tolerance : String) (tolMs : Int)
    (dataMap : List (String × PFrame)) (strict : Bool)
    (anchor : String) (sfx : Option (String → String)) :
    Except String PFrame :=
  match lookupFrame dataMap anchor with
  | none => Except.error ("anchor_symbol " ++ anchor ++ " not in data_map")
  | some af =>
    let symbols := dataMap.map Prod.fst
    let std := standardizeFrame af
    let base0 := match sfx with
      | some fmt => suffixCols (fmt anchor) std
      | none => std
    -- `for symbol in symbols: if symbols == anchor_symbol: continue` —
    -- the guard compares a list to a string and never fires, so every
    -- symbol (anchor included) is joined onto the running frame.
    let joined := dataMap.foldl (fun acc p => joinSymbol tolMs sfx acc p.2 p.1) base0
    let cleaned := if strict then dropNullRows joined else joined
    Except.ok (addAlignmentMetadata cleaned symbols anchor
      (hybridMethodStr tolerance "backward"))

def hybridAlign (tolerance : String) (tolMs : Int)
    (dataMap : List (String × PFrame)) (strict : Bool)
    (anchorOpt : Option String) (sfx : Option (String → String)) :
    Except String PFrame :=
  match dataMap with
  | [] => Except.error "No data provided for alignment"
  | first :: _ =>
    hybridAlignCore tolerance tolMs dataMap strict (anchorOpt.getD first.1) sfx

/-- The default `suffix_format` `"_{symbol}"`. -/
def defaultSfxFmt : String → String := fun sym => "_" ++ sym

/-- Look up a named cell of row `i`. -/
def getCell (f : PFrame) (c : String) (i : Nat) : Option CVal :=
  match f.colNames.findIdx? (fun n => n == c) with
  | none => none
  | some j => some ((f.rows.getD i (0, [])).2.getD j CVal.vnull)

/-- C1's failing input: BTC anchor at t = 0 and t = 120000 (ms), DOGE
with a single bar at t = 0, tolerance "1m" (60000 ms). At t = 120000 the
joined `close_DOGE` cell is out of tolerance, hence null. -/
def btcTestFrame : PFrame := ⟨["close"], [(0, [CVal.num 100]), (120000, [CVal.num 200])]⟩

def dogeTestFrame : PFrame := ⟨["close"], [(0, [CVal.num 50])]⟩

def testAlignMap : List (String × PFrame) :=
  [("BTC", btcTestFrame), ("DOGE", dogeTestFrame)]

/-! # Theorems -/

/-- C2 counterexample: the claim says `"1w"` resolves to 10080 rows in
both parsers, but the Microstructure (Tier 2) parser recognizes no `w`
unit and falls through to the raw numeric value: it resolves `"1w"` to
1 row, not 10080. -/
theorem C2_counterexample :
    microParseWindowToRows "1w" = 1 ∧ ¬ microParseWindowToRows "1w" = 10080 := by
  decide

/-- C2 (amended): window resolution assumes 1-minute bars — `"1h"` → 60
and `"1d"` → 1440 in both parsers; `"1w"` → 10080 only in the
Stationarity (Tier 3) parser, while the Microstructure (Tier 2) parser,
which recognizes only the units m/h/d/i, returns the raw numeric value
1 for `"1w"`; a duration string with no digit characters falls back to
the documented default of 60 rows in both parsers instead of raising. -/
theorem C2_window_resolution_amended :
    microParseWindowToRows "1h" = 60 ∧ microParseWindowToRows "1d" = 1440 ∧
    microParseWindowToRows "1w" = 1 ∧
    statArbParseToRows "1h" = 60 ∧ statArbParseToRows "1d" = 1440 ∧
    statArbParseToRows "1w" = 10080 ∧
    (∀ s : String, s.data.filter Char.isDigit = [] →
      microParseWindowToRows s = 60 ∧ statArbParseToRows s = 60) := by
  refine ⟨by decide, by decide, by decide, by decide, by decide, by decide, ?_⟩
  intro s h
  constructor <;> simp [microParseWindowToRows, statArbParseToRows, h]

/-- C2 witness: the no-digit fallback at the concrete unparseable
string `"??"`. -/
theorem C2_window_resolution_amended_witness :
    microParseWindowToRows "??" = 60 ∧ statArbParseToRows "??" = 60 :=
  C2_window_resolution_amended.2.2.2.2.2.2 "??" (by decide)

/-- C10: the constructor accepts exactly the strategy strings
`"backward"` and `"foward"` (the latter misspelled); every other
string — including the correctly spelled `"forward"` — raises, so the
factories return an error result rather than a forward-direction
aligner, while `"foward"` itself constructs successfully. -/
theorem C10_join_direction_acceptance :
    (∀ tol s : String, (∃ cfg, mkHybridAsofAligner tol s = Except.ok cfg) ↔
      (s = "backward" ∨ s = "foward"))
    ∧ createAligner "asof" "1m" "forward" =
        Except.error
          "failed to create aligner: Invalid strategy: forward. Must be ['backward', 'foward']"
    ∧ getAligner "asof" "1m" "forward" =
        Except.error
          "failed to create aligner: Invalid strategy: forward. Must be ['backward', 'foward']"
    ∧ getAligner "asof" "1m" "foward" = Except.ok (AlignerObj.asof ⟨"1m", "foward"⟩)
    ∧ getAligner "asof" "1m" "backward" = Except.ok (AlignerObj.asof ⟨"1m", "backward"⟩) := by
  refine ⟨?_, by rfl, by rfl, by rfl, by rfl⟩
  intro tol s
  have hiff : validStrategies.contains s = true ↔ (s = "backward" ∨ s = "foward") := by
    simp [validStrategies, List.contains, List.elem_iff]
  constructor
  · rintro ⟨cfg, hcfg⟩
    apply hiff.mp
    by_contra hfalse
    have hf : validStrategies.contains s = false := by
      cases hcv : validStrategies.contains s
      · rfl
      · exact absurd hcv hfalse
    unfold mkHybridAsofAligner hybridValidateConstructor at hcfg
    rw [hf] at hcfg
    simp at hcfg
  · intro hor
    refine ⟨⟨tol, s⟩, ?_⟩
    unfold mkHybridAsofAligner hybridValidateConstructor
    rw [hiff.mpr hor]
    simp

/-- C10 witness: the acceptance characterization applied at the
accepted string `"backward"`. -/
theorem C10_join_direction_acceptance_witness :
    ∃ cfg, mkHybridAsofAligner "1m" "backward" = Except.ok cfg :=
  (C10_join_direction_acceptance.1 "1m" "backward").mpr (Or.inl rfl)

/-- C3: `execute_multi_asset` is fail-fast for Align, Validate and the
transformer chain — the first failing stage's error is returned, for
every choice of the later stages — while a storage error after a
successful transformer chain still yields `Ok` with the transformed
frame. -/
theorem C3_fail_fast_policy :
    ∀ {α : Type},
    (∀ (v : Option (α → Except String α)) tfs st (e : String),
      executeMultiAsset (Except.error e) v tfs st = Except.error e)
    ∧ (∀ (d : α) vf tfs st e, vf d = Except.error e →
      executeMultiAsset (Except.ok d) (some vf) tfs st = Except.error e)
    ∧ (∀ (d : α) vf d1 tfs st e, vf d = Except.ok d1 →
      runTransformers d1 tfs = Except.error e →
      executeMultiAsset (Except.ok d) (some vf) tfs st = Except.error e)
    ∧ (∀ (d : α) tfs st e, runTransformers d tfs = Except.error e →
      executeMultiAsset (Except.ok d) none tfs st = Except.error e)
    ∧ (∀ (d : α) vf d1 tfs g sf e', vf d = Except.ok d1 →
      runTransformers d1 tfs = Except.ok g → sf g = Except.error e' →
      executeMultiAsset (Except.ok d) (some vf) tfs (some sf) = Except.ok g)
    ∧ (∀ (d : α) tfs g sf e', runTransformers d tfs = Except.ok g →
      sf g = Except.error e' →
      executeMultiAsset (Except.ok d) none tfs (some sf) = Except.ok g) := by
  intro α
  refine ⟨?_, ?_, ?_, ?_, ?_, ?_⟩
  · intro v tfs st e
    rfl
  · intro d vf tfs st e h
    simp [executeMultiAsset, h]
  · intro d vf d1 tfs st e h1 h2
    simp [executeMultiAsset, h1, h2]
  · intro d tfs st e h
    simp [executeMultiAsset, h]
  · intro d vf d1 tfs g sf e' h1 h2 h3
    simp [executeMultiAsset, h1, h2]
  · intro d tfs g sf e' h1 h2
    simp [executeMultiAsset, h1]

/-- C3 witness: a concrete run over `Nat` frames in which alignment and
validation succeed, the single transformer doubles the frame, and the
storage stage fails — the run still returns `Ok` of the transformed
frame. -/
theorem C3_fail_fast_policy_witness :
    executeMultiAsset (Except.ok (0 : Nat)) (some (fun n => Except.ok (n + 1)))
      [fun n => Except.ok (n * 2)] (some (fun _ => Except.error "disk full")) =
    Except.ok 2 :=
  C3_fail_fast_policy.2.2.2.2.1 0 (fun n => Except.ok (n + 1)) 1
    [fun n => Except.ok (n * 2)] 2 (fun _ => Except.error "disk full") "disk full"
    rfl rfl rfl

theorem subseg_trans {x y z : List Char} (h1 : SubSeg x y) (h2 : SubSeg y z) :
    SubSeg x z := by
  obtain ⟨a, b, rfl⟩ := h1
  obtain ⟨p, q, rfl⟩ := h2
  exact ⟨p ++ a, b ++ q, by simp⟩

theorem subseg_append_left (p : List Char) {x s : List Char} (h : SubSeg x s) :
    SubSeg x (p ++ s) := by
  obtain ⟨a, b, rfl⟩ := h
  exact ⟨p ++ a, b, by simp⟩

theorem subseg_append_right (q : List Char) {x s : List Char} (h : SubSeg x s) :
    SubSeg x (s ++ q) := by
  obtain ⟨a, b, rfl⟩ := h
  exact ⟨a, b ++ q, by simp⟩

theorem subseg_self (x : List Char) : SubSeg x x := ⟨[], [], by simp⟩

theorem subseg_joinSep {x : String} : ∀ {l : List String}, x ∈ l →
    SubSeg x.data (joinSep ", " l).data := by
  intro l
  induction l with
  | nil => intro h; cases h
  | cons hd tl ih =>
    intro h
    cases tl with
    | nil =>
      have hx : x = hd := by simpa using h
      subst hx
      exact subseg_self x.data
    | cons y ys =>
      rcases List.mem_cons.mp h with rfl | hmem
      · show SubSeg x.data (x ++ ", " ++ joinSep ", " (y :: ys)).data
        simp only [String.data_append, List.append_assoc]
        exact ⟨[], _, rfl⟩
      · have := ih hmem
        show SubSeg x.data (hd ++ ", " ++ joinSep ", " (y :: ys)).data
        simp only [String.data_append, List.append_assoc]
        exact subseg_append_left _ (subseg_append_left _ this)

theorem schemaViolations_eq_nil {schema : List (String × String)}
    (h : ∀ cd ∈ schema, isSensitiveCol cd.1 = true →
      isFloat64Dtype (pyLower cd.2) = true) :
    schemaViolations schema = [] := by
  induction schema with
  | nil => rfl
  | cons hd tl ih =>
    have hhd := h hd (List.mem_cons_self hd tl)
    have htl := fun cd hm => h cd (List.mem_cons_of_mem hd hm)
    by_cases hs : isSensitiveCol hd.1 = true
    · simp only [schemaViolations, List.filterMap_cons, hs, if_true, hhd hs]
      exact ih htl
    · have hs' : isSensitiveCol hd.1 = false := by
        cases hv : isSensitiveCol hd.1
        · rfl
        · exact absurd hv hs
      simp only [schemaViolations, List.filterMap_cons, hs']
      simp only [Bool.false_eq_true, if_false]
      exact ih htl

theorem mem_schemaViolations {schema : List (String × String)} {c d : String}
    (hm : (c, d) ∈ schema) (hs : isSensitiveCol c = true)
    (hf : isFloat64Dtype (pyLower d) = false) :
    (c ++ " (" ++ pyLower d ++ ")") ∈ schemaViolations schema := by
  unfold schemaViolations
  exact List.mem_filterMap.mpr ⟨(c, d), hm, by simp [hs, hf]⟩

/-- C5: schema enforcement rejects narrow floats for sensitive columns.
If every column carrying a sensitive prefix (log_, ret_, vol_, corr_,
beta_, spread_, z_score_) has a 64-bit float dtype, validation returns
`Ok`; if any sensitive column does not, it returns an error whose
message names that column. In particular `z_score_BTC` as 32-bit float
fails and as 64-bit float passes. -/
theorem C5_schema_precision_enforcement :
    (∀ schema : List (String × String),
      (∀ cd ∈ schema, isSensitiveCol cd.1 = true →
        isFloat64Dtype (pyLower cd.2) = true) →
      validateSchemaIntegrity schema = Except.ok ())
    ∧ (∀ (schema : List (String × String)) (c d : String), (c, d) ∈ schema →
        isSensitiveCol c = true → isFloat64Dtype (pyLower d) = false →
        ∃ m, validateSchemaIntegrity schema = Except.error m ∧ SubSeg c.data m.data)
    ∧ validateSchemaIntegrity [("z_score_BTC", "Float32")] =
        Except.error "Precision violation: z_score_BTC (float32) must be Float64"
    ∧ validateSchemaIntegrity [("z_score_BTC", "Float64")] = Except.ok () := by
  refine ⟨?_, ?_, by rfl, by rfl⟩
  · intro schema h
    unfold validateSchemaIntegrity
    rw [schemaViolations_eq_nil h]
    rfl
  · intro schema c d hm hs hf
    have hmem := mem_schemaViolations hm hs hf
    have hne : schemaViolations schema ≠ [] := by
      intro hnil
      rw [hnil] at hmem
      cases hmem
    refine ⟨"Precision violation: " ++ joinSep ", " (schemaViolations schema) ++
      " must be Float64", ?_, ?_⟩
    · unfold validateSchemaIntegrity
      rw [if_neg (by simpa [List.isEmpty_iff] using hne)]
    · have hin : SubSeg c.data
          (joinSep ", " (schemaViolations schema)).data := by
        refine subseg_trans ?_ (subseg_joinSep hmem)
        show SubSeg c.data (c ++ " (" ++ pyLower d ++ ")").data
        simp only [String.data_append, List.append_assoc]
        exact ⟨[], _, rfl⟩
      simp only [String.data_append]
      exact subseg_append_right _ (subseg_append_left _ hin)

/-- C5 witness: the general Ok and error characterizations applied to
the concrete schema `{close: Float64, z_score_ETH: Float32}`. -/
theorem C5_schema_precision_enforcement_witness :
    validateSchemaIntegrity [("log_BTC", "Float64"), ("close", "Int64")] = Except.ok ()
    ∧ ∃ m, validateSchemaIntegrity [("close", "Float64"), ("z_score_ETH", "Float32")] =
        Except.error m ∧ SubSeg "z_score_ETH".data m.data :=
  ⟨C5_schema_precision_enforcement.1 _ (by decide),
   C5_schema_precision_enforcement.2.1 _ "z_score_ETH" "Float32" (by decide)
     (by decide) (by decide)⟩

theorem postInitCheck_ok_inv {r r' : ValidationRules}
    (h : postInitCheck r = Except.ok r') :
    r' = r ∧ r.required_columns.isEmpty = false := by
  unfold postInitCheck at h
  split at h
  · cases h
  · split at h
    · cases h
    · split at h
      · cases h
      · split at h
        · cases h
        · split at h
          · cases h
          · rename_i hempty
            refine ⟨by injection h with h'; exact h'.symm, ?_⟩
            cases hv : r.required_columns.isEmpty
            · rfl
            · exact absurd hv hempty

theorem postInitCheck_ok_of {r : ValidationRules}
    (h1 : ¬ r.min_rows < 1)
    (h2 : 0 ≤ r.max_null_pct ∧ r.max_null_pct ≤ 1)
    (h3 : ¬ r.min_price < 0)
    (h4 : ¬ (r.validate_timestamp_range = true ∧ r.max_timestamp ≤ r.min_timestamp))
    (h5 : r.required_columns.isEmpty = false) :
    postInitCheck r = Except.ok r := by
  unfold postInitCheck
  rw [if_neg h1, if_neg (not_not_intro h2), if_neg h3, if_neg h4,
    if_neg (by simp [h5])]

theorem postInitCheck_default_override_ok (cols : List String)
    (h : cols.isEmpty = false) :
    postInitCheck { defaultValidationRules with required_columns := cols } =
      Except.ok { defaultValidationRules with required_columns := cols } := by
  refine postInitCheck_ok_of ?_ ?_ ?_ ?_ h
  · show ¬ (100 : Int) < 1
    norm_num
  · constructor
    · show (0 : ℚ) ≤ 5 / 100
      norm_num
    · show (5 : ℚ) / 100 ≤ 1
      norm_num
  · show ¬ (0 : ℚ) < 0
    norm_num
  · show ¬ (false = true ∧ (10000000000000 : Int) ≤ 0)
    simp

/-- C8 counterexample: the claim says every way of deriving a rule set
keeps `"timestamp"` in `required_columns`, but `with_overrides` (which
is also the validator's per-call rule merging) performs no timestamp
injection: overriding `required_columns` with `["close"]` yields a rule
set without `"timestamp"`. -/
theorem C8_counterexample :
    (withOverrides defaultValidationRules
      { required_columns := some ["close"] }).required_columns = ["close"]
    ∧ "timestamp" ∉ (withOverrides defaultValidationRules
      { required_columns := some ["close"] }).required_columns := by
  have happ : applyOverrides defaultValidationRules { required_columns := some ["close"] } =
      { defaultValidationRules with required_columns := ["close"] } := rfl
  have hres : (withOverrides defaultValidationRules
      { required_columns := some ["close"] }).required_columns = ["close"] := by
    unfold withOverrides
    rw [happ, postInitCheck_default_override_ok ["close"] rfl]
  refine ⟨hres, ?_⟩
  rw [hres]
  simp

/-- C8 (amended): default construction and `from_dict` guarantee a
non-empty `required_columns` containing `"timestamp"` (`from_dict`
auto-injects it); `with_overrides` — and hence the validator's per-call
rule merging — only preserves non-emptiness (an invalid override makes
it fall back to the original rules), and need not preserve the presence
of `"timestamp"`. -/
theorem C8_required_columns_amended :
    defaultValidationRules.required_columns = ["timestamp", "close"]
    ∧ (∀ cols : List String, ∃ r,
        rulesFromDict { required_columns := some cols } = Except.ok r ∧
        "timestamp" ∈ r.required_columns ∧ r.required_columns ≠ [])
    ∧ (∀ (r : ValidationRules) (o : RuleOverrides), r.required_columns ≠ [] →
        (withOverrides r o).required_columns ≠ []) := by
  refine ⟨rfl, ?_, ?_⟩
  · intro cols
    by_cases hct : cols.contains "timestamp" = true
    · have hmem : "timestamp" ∈ cols := by
        simpa [List.contains, List.elem_iff] using hct
      have hne := List.ne_nil_of_mem hmem
      refine ⟨{ defaultValidationRules with required_columns := cols }, ?_, hmem, hne⟩
      unfold rulesFromDict
      simp only [hct, if_true]
      exact postInitCheck_default_override_ok cols (by simpa [List.isEmpty_iff] using hne)
    · have hct' : cols.contains "timestamp" = false := by
        cases hv : cols.contains "timestamp"
        · rfl
        · exact absurd hv hct
      refine ⟨{ defaultValidationRules with
                required_columns := "timestamp" :: cols }, ?_,
              List.mem_cons_self _ _, by simp⟩
      unfold rulesFromDict
      simp only [hct', Bool.false_eq_true, if_false]
      exact postInitCheck_default_override_ok ("timestamp" :: cols) rfl
  · intro r o hne
    unfold withOverrides
    cases hpc : postInitCheck (applyOverrides r o) with
    | error e => exact hne
    | ok r' =>
      obtain ⟨rfl, hempty⟩ := postInitCheck_ok_inv hpc
      intro hnil
      rw [hnil] at hempty
      cases hempty

/-- C8 witness: an invalid per-call override (`min_rows = 0`) falls
back to the original rule set, so `required_columns` stays non-empty. -/
theorem C8_required_columns_amended_witness :
    (withOverrides defaultValidationRules { min_rows := some 0 }).required_columns ≠ [] :=
  C8_required_columns_amended.2.2 defaultValidationRules { min_rows := some 0 }
    (by decide)

theorem char_eq_of_toNat_eq {a b : Char} (h : a.toNat = b.toNat) : a = b :=
  Char.ext (UInt32.eq_of_toBitVec_eq (BitVec.eq_of_toNat_eq h))

theorem charListLe_total : ∀ a b : List Char,
    charListLe a b = true ∨ charListLe b a = true := by
  intro a
  induction a with
  | nil => intro b; exact Or.inl rfl
  | cons x xs ih =>
    intro b
    cases b with
    | nil => exact Or.inr rfl
    | cons y ys =>
      by_cases hxy : x.toNat < y.toNat
      · left; simp [charListLe, hxy]
      · by_cases hyx : y.toNat < x.toNat
        · right; simp [charListLe, hyx]
        · rcases ih ys with h | h
          · left; simp [charListLe, hxy, hyx, h]
          · right; simp [charListLe, hxy, hyx, h]

theorem charListLe_trans : ∀ a b c : List Char,
    charListLe a b = true → charListLe b c = true → charListLe a c = true := by
  intro a
  induction a with
  | nil => intro b c _ _; rfl
  | cons x xs ih =>
    intro b c hab hbc
    cases b with
    | nil => simp [charListLe] at hab
    | cons y ys =>
      cases c with
      | nil => simp [charListLe] at hbc
      | cons z zs =>
        simp only [charListLe] at hab hbc ⊢
        split_ifs at hab hbc ⊢ with h1 h2 h3 h4 h5 h6 <;>
          first
            | rfl
            | exact (Bool.false_ne_true hab).elim
            | exact (Bool.false_ne_true hbc).elim
            | exact ih ys zs hab hbc
            | (exfalso; omega)

theorem charListLe_antisymm : ∀ a b : List Char,
    charListLe a b = true → charListLe b a = true → a = b := by
  intro a
  induction a with
  | nil =>
    intro b _ hba
    cases b with
    | nil => rfl
    | cons y ys => simp [charListLe] at hba
  | cons x xs ih =>
    intro b hab hba
    cases b with
    | nil => simp [charListLe] at hab
    | cons y ys =>
      simp only [charListLe] at hab hba
      by_cases h1 : x.toNat < y.toNat
      · have h1' : ¬ y.toNat < x.toNat := by omega
        rw [if_neg h1', if_pos h1] at hba
        cases hba
      · by_cases h2 : y.toNat < x.toNat
        · rw [if_neg h1, if_pos h2] at hab
          cases hab
        · have hx : x = y := char_eq_of_toNat_eq (by omega)
          subst hx
          rw [if_neg h1, if_neg h2] at hab hba
          rw [ih ys hab hba]

theorem pyStrLe_antisymm {a b : String} (h1 : pyStrLe a b = true)
    (h2 : pyStrLe b a = true) : a = b := by
  cases a with
  | mk da =>
    cases b with
    | mk db =>
      have := charListLe_antisymm da db h1 h2
      simp [this]

instance : IsTotal (String × Int) keyLe :=
  ⟨fun a b => charListLe_total a.1.data b.1.data⟩

instance : IsTrans (String × Int) keyLe :=
  ⟨fun a b c => charListLe_trans a.1.data b.1.data c.1.data⟩

/-- Two entry lists that are permutations of each other and have
pairwise-distinct keys sort (by key) to the same list. -/
theorem sortedEntries_eq_of_perm {d1 d2 : List (String × Int)}
    (hnd : (d1.map Prod.fst).Nodup) (hp : d1.Perm d2) :
    d1.insertionSort keyLe = d2.insertionSort keyLe := by
  set r : (String × Int) → (String × Int) → Prop :=
    fun a b => keyLe a b ∧ a.1 ≠ b.1 with hr
  haveI : IsAntisymm (String × Int) r :=
    ⟨fun a b hab hba => absurd (pyStrLe_antisymm hab.1 hba.1) hab.2⟩
  have hperm : (d1.insertionSort keyLe).Perm (d2.insertionSort keyLe) :=
    (List.perm_insertionSort keyLe d1).trans
      (hp.trans (List.perm_insertionSort keyLe d2).symm)
  have sortedStrict : ∀ d : List (String × Int), (d.map Prod.fst).Nodup →
      List.Sorted r (d.insertionSort keyLe) := by
    intro d hd
    have hs : List.Sorted keyLe (d.insertionSort keyLe) :=
      List.sorted_insertionSort keyLe d
    have hndS : ((d.insertionSort keyLe).map Prod.fst).Nodup :=
      hd.perm ((List.perm_insertionSort keyLe d).map Prod.fst).symm
    have hne : (d.insertionSort keyLe).Pairwise (fun a b => a.1 ≠ b.1) :=
      (List.pairwise_map.mp hndS)
    exact (hs.and hne).imp (fun h => ⟨h.1, h.2⟩)
  have hnd2 : (d2.map Prod.fst).Nodup := hnd.perm (hp.map Prod.fst)
  exact List.eq_of_perm_of_sorted hperm (sortedStrict d1 hnd) (sortedStrict d2 hnd2)

set_option maxRecDepth 1000000 in
/-- C4: the feature-hash fingerprint is key-order independent (two
configuration dictionaries equal as key-value maps — entry lists that
are permutations of each other, keys distinct — hash identically) and
content sensitive at the spec's probe points:
`{"a":1,"b":2}` hashes like `{"b":2,"a":1}` and unlike `{"a":1,"b":3}`. -/
theorem C4_feature_hash_order_independence :
    (∀ d1 d2 : List (String × Int), (d1.map Prod.fst).Nodup → d1.Perm d2 →
      generateFeatureHash d1 = generateFeatureHash d2)
    ∧ generateFeatureHash [("a", 1), ("b", 2)] =
        generateFeatureHash [("b", 2), ("a", 1)]
    ∧ generateFeatureHash [("a", 1), ("b", 2)] ≠
        generateFeatureHash [("a", 1), ("b", 3)] := by
  refine ⟨?_, by rfl, by decide⟩
  intro d1 d2 hnd hp
  unfold generateFeatureHash canonicalConfigStr
  rw [sortedEntries_eq_of_perm hnd hp]

/-- C4 witness: order independence applied at the concrete pair
`{"x":5,"y":7}` vs `{"y":7,"x":5}`. -/
theorem C4_feature_hash_order_independence_witness :
    generateFeatureHash [("x", 5), ("y", 7)] = generateFeatureHash [("y", 7), ("x", 5)] :=
  C4_feature_hash_order_independence.1 _ _ (by decide) (List.Perm.swap _ _ _)

theorem sampleVar_replicate (m : Nat) (c : ℚ) :
    sampleVar (List.replicate m c) = 0 := by
  cases m with
  | zero => simp [sampleVar, qmean]
  | succ k =>
    have hmean : qmean (List.replicate (k + 1) c) = c := by
      unfold qmean
      rw [List.sum_replicate, List.length_replicate]
      have hk : ((k : ℚ) + 1) ≠ 0 := by positivity
      push_cast
      field_simp
    unfold sampleVar
    rw [hmean, List.map_replicate]
    simp

/-- C6: the zero-variance guardrail — whenever the anchor's rolling
variance materializes below the 1e-9 epsilon (in particular for an
anchor constant over the whole window, whose variance is 0), the beta
cell is exactly the finite float 0.0, never NaN or ±∞. -/
theorem C6_zero_variance_beta_guardrail :
    (∀ (w mp : Nat) (target anchor : List ℚ) (i : Nat) (v : ℚ),
      rollingVar w mp anchor i = some v → v < betaEps →
      betaCell w mp target anchor i = FVal.num 0)
    ∧ (∀ (w mp n : Nat) (c : ℚ) (target : List ℚ) (i : Nat),
        rollingVar w mp (List.replicate n c) i ≠ none →
        betaCell w mp target (List.replicate n c) i = FVal.num 0) := by
  have hmain : ∀ (w mp : Nat) (target anchor : List ℚ) (i : Nat) (v : ℚ),
      rollingVar w mp anchor i = some v → v < betaEps →
      betaCell w mp target anchor i = FVal.num 0 := by
    intro w mp target anchor i v hv hlt
    have hraw : betaCellRaw w mp target anchor i = some (FVal.num 0) := by
      unfold betaCellRaw
      rw [hv]
      simp [hlt]
    unfold betaCell
    rw [hraw]
    rfl
  refine ⟨hmain, ?_⟩
  intro w mp n c target i hne
  have hslice : rollingSlice w (List.replicate n c) i =
      List.replicate (min (i + 1) n - (i + 1 - w)) c := by
    unfold rollingSlice
    rw [List.take_replicate, List.drop_replicate]
  by_cases hlen : (rollingSlice w (List.replicate n c) i).length < mp
  · exfalso
    apply hne
    simp only [rollingVar]
    rw [if_pos hlen]
  · have hv : rollingVar w mp (List.replicate n c) i = some 0 := by
      simp only [rollingVar]
      rw [if_neg hlen, hslice, sampleVar_replicate]
    exact hmain w mp target _ i 0 hv (by norm_num [betaEps])

/-- C6 witness: a window in which the anchor is the constant series
`[5, 5, 5]` (variance 0) produces a beta of exactly 0.0. -/
theorem C6_zero_variance_beta_guardrail_witness :
    betaCell 3 2 [1, 2, 3] (List.replicate 3 (5 : ℚ)) 2 = FVal.num 0 :=
  C6_zero_variance_beta_guardrail.2 3 2 3 5 [1, 2, 3] 2 (by decide)

theorem joinAsofBackward_rows_length (tolMs : Int) (base follower : PFrame) :
    (joinAsofBackward tolMs base follower).rows.length = base.rows.length := by
  simp [joinAsofBackward]

theorem joinSymbol_rows_length (tolMs : Int) (sfx : Option (String → String))
    (base symFrame : PFrame) (sym : String) :
    (joinSymbol tolMs sfx base symFrame sym).rows.length = base.rows.length := by
  unfold joinSymbol
  cases sfx <;> simp [joinAsofBackward_rows_length]

theorem foldJoin_rows_length (tolMs : Int) (sfx : Option (String → String)) :
    ∀ (l : List (String × PFrame)) (acc : PFrame),
    (l.foldl (fun acc p => joinSymbol tolMs sfx acc p.2 p.1) acc).rows.length =
      acc.rows.length := by
  intro l
  induction l with
  | nil => intro acc; rfl
  | cons hd tl ih =>
    intro acc
    simp only [List.foldl_cons]
    rw [ih, joinSymbol_rows_length]

/-- C7: row-count invariant of the Hybrid-Asof align. Whenever the
anchor resolves (non-empty map, anchor present) and `strict` is off —
the mode in which the claim's "follower cells null" reading applies —
the aligned frame has exactly as many rows as the standardized anchor:
asof-joining followers onto the anchor never adds or removes rows, and
a base row whose nearest follower row lies beyond the tolerance (or has
no follower row at or before it) gets only null follower cells. -/
theorem C7_alignment_row_count :
    (∀ (tolerance : String) (tolMs : Int) (dataMap : List (String × PFrame))
       (anchorOpt : Option String) (sfx : Option (String → String))
       (first : String × PFrame) (rest : List (String × PFrame)) (af : PFrame),
      dataMap = first :: rest →
      lookupFrame dataMap (anchorOpt.getD first.1) = some af →
      ∃ res, hybridAlign tolerance tolMs dataMap false anchorOpt sfx = Except.ok res ∧
        res.rows.length = (standardizeFrame af).rows.length)
    ∧ (∀ (tolMs : Int) (base follower : PFrame) (r : Int × List CVal),
        r ∈ base.rows →
        (∀ m, lastLE follower.rows r.1 = some m → tolMs < r.1 - m.1) →
        (r.1, r.2 ++ follower.colNames.map (fun _ => CVal.vnull)) ∈
          (joinAsofBackward tolMs base follower).rows) := by
  constructor
  · intro tolerance tolMs dataMap anchorOpt sfx first rest af hmap hlook
    subst hmap
    show ∃ res, hybridAlignCore tolerance tolMs (first :: rest) false
      (anchorOpt.getD first.1) sfx = Except.ok res ∧
      res.rows.length = (standardizeFrame af).rows.length
    unfold hybridAlignCore
    rw [hlook]
    refine ⟨_, rfl, ?_⟩
    simp only [addAlignmentMetadata, List.length_map, Bool.false_eq_true, if_false]
    rw [foldJoin_rows_length]
    cases sfx <;> simp [suffixCols]
  · intro tolMs base follower r hr hout
    unfold joinAsofBackward
    apply List.mem_map.mpr
    refine ⟨r, hr, ?_⟩
    have hpad : (follower.colNames.map (fun c =>
        if base.colNames.contains c then c ++ "_right" else c)).map
          (fun _ => CVal.vnull) = follower.colNames.map (fun _ => CVal.vnull) := by
      rw [List.map_map]
      rfl
    cases hm : lastLE follower.rows r.1 with
    | none => simp only [hm]; rw [hpad]
    | some m =>
      have htol := hout m hm
      simp only [hm]
      rw [if_neg (by omega), hpad]

/-- C7 witness: the row-count invariant at the concrete two-symbol map
(anchor BTC standardizes to 2 rows; the aligned frame has 2 rows). -/
theorem C7_alignment_row_count_witness :
    ∃ res, hybridAlign "1m" 60000 testAlignMap false none (some defaultSfxFmt) =
      Except.ok res ∧ res.rows.length = (standardizeFrame btcTestFrame).rows.length :=
  C7_alignment_row_count.1 "1m" 60000 testAlignMap none (some defaultSfxFmt)
    ("BTC", btcTestFrame) [("DOGE", dogeTestFrame)] btcTestFrame rfl rfl

/-- C1: evaluation of the aligner at the failing input. With
`strict=True` (the default), the 2-row BTC anchor joined with a DOGE
follower that is out of tolerance at the second anchor timestamp
returns BOTH rows, the second still carrying a null `close_DOGE` cell —
`_drop_null_rows` keeps any row in which at least one price-substring
column is non-null (`pl.any_horizontal(...is_not_null())`), so the
result is not complete-case as the claim (and the helper's own
docstring, "Drop rows with null values in price column") requires. -/
theorem C1_strict_mode_keeps_partial_null_row :
    (hybridAlign "1m" 60000 testAlignMap true none (some defaultSfxFmt)).toOption.map
      (fun f => (f.rows.length, getCell f "close_DOGE" 1)) =
    some (2, some CVal.vnull) := by
  rfl

/-- C9: evaluation of Tier 1 at the spec's two-point price series. The
lazy `transform` succeeds, but materializing its plan fails with a
column-not-found error for every log function and configuration: the
`ret_BTC` expression references `log_BTC`, which is created by the same
(parallel) `with_columns` batch and is absent from the input schema, so
no return values are ever produced. -/
theorem C9_tier1_materialization_fails :
    ∀ (lg : ℚ → ℚ) (rz : Bool) (eps : ℚ),
      tier1Transform testT1Frame = Except.ok (testT1Frame, ["close_BTC"])
      ∧ tier1Run lg rz eps testT1Frame = Except.error "column log_BTC not found" := by
  intro lg rz eps
  exact ⟨rfl, rfl⟩

end StatArbLab
